import Mathlib

/-!
Shallow embedding of `tensorpack/coupled.py` (coupled tensor factorization).

Modelling conventions:
* Array entries are modelled by `FVal`: an exact rational for a finite float,
  plus the IEEE special values NaN, +inf, -inf.  Arithmetic on finite values is
  exact rational arithmetic; the IEEE special values only arise from non-finite
  inputs and from the final division `1.0 - vTop / vBottom` in `calcR2X`.
* numpy arrays are modelled as shape metadata plus an entry function
  (`QMat`/`FMat` for 2-D, `DataArray` for n-D), mirroring ndarray's
  shape + buffer representation.
* Python exceptions are modelled with `Except PyErr`.
* xarray datasets are modelled as an ordered list of coordinate axes
  (name and length) plus an ordered list of named variables; as in this
  repository's usage (`genSample`), every dimension of a variable is assumed
  to carry a declared coordinate, and a variable's coordinate enumeration
  order (`list(da.coords)`) is its dimension order.
* External numerical collaborators (`numpy`, `tensorly`) are modelled from
  their documented behaviour: `np.nan_to_num` maps NaN to 0 and ±inf to
  ±MAX_FLOAT; `np.linalg.svd` fails on non-finite input (LinAlgError);
  `np.concatenate` of an empty sequence raises ValueError;
  `tensorly.tenalg.khatri_rao` returns `matrices[0]` for a singleton list,
  validates equal column counts, and indexes `matrices[0]` (IndexError) on an
  empty list; `np.linalg.svd` itself is kept abstract (an oracle parameter),
  as the spec treats it as a black box.
-/

/-- Model of a Python float value: a finite value (exact rational) or one of
the IEEE-754 special values. -/
inductive FVal where
  | fin (q : ℚ)
  | nan
  | pinf
  | ninf
deriving DecidableEq, Inhabited

/-- Model of the Python exceptions that the embedded code can raise. -/
inductive PyErr where
  | nameError (s : String)
  | attributeError (s : String)
  | assertionError
  | valueError
  | indexError
  | linAlgError
deriving DecidableEq, Inhabited

/-- `np.isfinite` on one value. -/
def FVal.isfinite : FVal → Bool
  | .fin _ => true
  | _ => false

/-- The largest finite IEEE-754 double, `np.finfo(float64).max`
(= (2 - 2^-52) * 2^1023).  `np.nan_to_num` substitutes it for +inf by default. -/
def floatMax : ℚ := 2 ^ 1024 - 2 ^ 971

/-- `np.nan_to_num` on one value (defaults: NaN to 0, ±inf to ±MAX_FLOAT). -/
def FVal.nan_to_num : FVal → ℚ
  | .fin q => q
  | .nan => 0
  | .pinf => floatMax
  | .ninf => -floatMax

/-- The finiteness mask entry as a 0/1 rational (numpy boolean mask used in
arithmetic). -/
def maskQ (v : FVal) : ℚ := if v.isfinite then 1 else 0

/-- A 2-D numpy array of (finite) rationals: shape metadata plus entry
function, mirroring ndarray shape + buffer. -/
structure QMat where
  rows : ℕ
  cols : ℕ
  entry : ℕ → ℕ → ℚ
deriving Inhabited

/-- A 2-D numpy array of float values (may contain NaN/inf). -/
structure FMat where
  rows : ℕ
  cols : ℕ
  entry : ℕ → ℕ → FVal
deriving Inhabited

/-- `np.ones((r, c))`. -/
def QMat.ones (r c : ℕ) : QMat := ⟨r, c, fun _ _ => 1⟩

/-- `np.ones_like(m)`. -/
def QMat.onesLike (m : QMat) : QMat := ⟨m.rows, m.cols, fun _ _ => 1⟩

/-- True iff the matrix has a non-finite entry (within its shape). -/
def FMat.hasNonFinite (m : FMat) : Bool :=
  (List.range m.rows).any (fun i =>
    (List.range m.cols).any (fun j => !(m.entry i j).isfinite))

/-- An axis name. -/
abbrev Axis := String

/-- One variable of an `xr.Dataset`: its ordered dimension (axis) list and its
dense array, as an entry function on multi-indices. -/
structure DataArray where
  dims : List Axis
  entry : List ℕ → FVal
deriving Inhabited

/-- An `xr.Dataset`: declared coordinate axes (name and length, in declaration
order) and named variables (in `data_vars` order). -/
structure Dataset where
  coords : List (Axis × ℕ)
  vars : List (String × DataArray)
deriving Inhabited

/-- The length of a named axis (its number of coordinate labels). -/
def axLen (ds : Dataset) (a : Axis) : ℕ := (ds.coords.lookup a).getD 0

/-- The declared axis names, in declaration order (`list(data.coords)`). -/
def coordNames (ds : Dataset) : List Axis := ds.coords.map Prod.fst

/-- The shape of a variable's array (per-dimension axis lengths). -/
def shapeOf (ds : Dataset) (da : DataArray) : List ℕ := da.dims.map (axLen ds)

/-- Look a variable up by name (`self.data[dvars]`). -/
def dataVar (ds : Dataset) (v : String) : DataArray :=
  (ds.vars.lookup v).getD default

/-- Decode a flat row-major index into a multi-index for the given shape. -/
def decodeIdx : List ℕ → ℕ → List ℕ
  | [], _ => []
  | _ :: ns, j => j / ns.prod :: decodeIdx ns (j % ns.prod)

/-- Insert a value at a given position of a list (used to rebuild the original
multi-index after an axis has been moved to the front). -/
def insertAt (k : ℕ) (x : ℕ) (l : List ℕ) : List ℕ :=
  match k, l with
  | 0, l => x :: l
  | _ + 1, [] => [x]
  | k + 1, y :: ys => y :: insertAt k x ys

/-- All multi-indices of a shape, in row-major order. -/
def allIdx : List ℕ → List (List ℕ)
  | [] => [[]]
  | n :: ns => ((List.range n).map (fun i => (allIdx ns).map (i :: ·))).flatten

/-- `tensorly.unfold(X, k)`: move axis `k` to the front and flatten the
remaining axes, in their existing relative order, row-major into columns. -/
def tl_unfold (ds : Dataset) (da : DataArray) (k : ℕ) : FMat :=
  let others : List ℕ := ((da.dims.eraseIdx k).map (axLen ds))
  ⟨(shapeOf ds da).getD k 0, others.prod,
   fun i j => da.entry (insertAt k i (decodeIdx others j))⟩

/-- `np.concatenate([a, b], axis=1)` for two blocks of equal row count. -/
def hconcat2 (a b : FMat) : FMat :=
  ⟨a.rows, a.cols + b.cols,
   fun i j => if j < a.cols then a.entry i j else b.entry i (j - a.cols)⟩

/-- `np.concatenate([a, b], axis=0)` for two blocks of equal column count. -/
def vconcat2 (a b : QMat) : QMat :=
  ⟨a.rows + b.rows, a.cols,
   fun i j => if i < a.rows then a.entry i j else b.entry (i - a.rows) j⟩

/-- `xr_unfold(data, mode)`: unfold every variable that has the axis (the axis
index inside a variable is `list(da.coords).index(mode)`, its position in the
variable's dimension order) and concatenate the results along columns, in
variable order.  `np.concatenate` of an empty list raises ValueError. -/
def xr_unfold (ds : Dataset) (mode : Axis) : Except PyErr FMat :=
  match ds.vars.filterMap (fun p =>
      if mode ∈ p.2.dims then some (tl_unfold ds p.2 (p.2.dims.indexOf mode))
      else none) with
  | [] => .error .valueError
  | a :: rest => .ok (rest.foldl hconcat2 a)

/-- `calcR2X_TnB(tIn, tRecon)`: the numerator and denominator of the R2X
formula.  `np.linalg.norm(x) ** 2.0` is the sum of squared entries. -/
def calcR2X_TnB (shape : List ℕ) (tIn : List ℕ → FVal) (tRecon : List ℕ → ℚ) :
    ℚ × ℚ :=
  (((allIdx shape).map
      (fun idx => (tRecon idx * maskQ (tIn idx) - (tIn idx).nan_to_num) ^ 2)).sum,
   ((allIdx shape).map (fun idx => ((tIn idx).nan_to_num) ^ 2)).sum)

/-- IEEE semantics of the float expression `1.0 - t / b` for finite `t`, `b`:
if `b = 0` the quotient is NaN (0/0) or ±inf, making the whole expression
NaN or ∓inf; otherwise the result is finite. -/
def ieee1sub (t b : ℚ) : FVal :=
  if b = 0 then (if t = 0 then .nan else if t > 0 then .ninf else .pinf)
  else .fin (1 - t / b)

/-- Effectful map over a list, stopping at the first raised exception (the
semantics of a Python loop that appends to a list and may raise). -/
def exMapM (f : α → Except PyErr β) : List α → Except PyErr (List β)
  | [] => .ok []
  | x :: xs =>
    match f x with
    | .error e => .error e
    | .ok y =>
      match exMapM f xs with
      | .error e => .error e
      | .ok ys => .ok (y :: ys)

/-- Effectful fold over a list, stopping at the first raised exception (the
semantics of a Python loop that updates state and may raise). -/
def exFoldl (f : γ → α → Except PyErr γ) : γ → List α → Except PyErr γ
  | c, [] => .ok c
  | c, x :: xs =>
    match f c x with
    | .error e => .error e
    | .ok c2 => exFoldl f c2 xs

/-- The `CoupledTensor` object: the original dataset, the rank, the factor
state `self.x` (one factor matrix per axis, keyed by axis name, plus the
weight matrix), and the per-axis unfolded cache `self.unfold`. -/
structure CoupledTensor where
  data : Dataset
  rank : ℕ
  x_factors : List (Axis × QMat)
  x_weight : QMat
  unfold : List (Axis × FMat)
deriving Inhabited

/-- The factor matrices created by `__init__`: one all-ones
`(axis length x rank)` matrix per declared axis. -/
def mkFactors (ds : Dataset) (rank : ℕ) : List (Axis × QMat) :=
  (coordNames ds).map (fun a => (a, QMat.ones (axLen ds a) rank))

/-- `CoupledTensor.__init__(data, rank)`: build the all-ones factor state and
the per-axis unfolded cache; a failure while building the cache (an axis used
by no variable) aborts construction, so no object is produced. -/
def mkCoupledTensor (ds : Dataset) (rank : ℕ) : Except PyErr CoupledTensor :=
  match exMapM (fun m =>
      match xr_unfold ds m with
      | .error e => .error e
      | .ok u => .ok (m, u)) (coordNames ds) with
  | .error e => .error e
  | .ok cache =>
    .ok ⟨ds, rank, mkFactors ds rank, QMat.ones ds.vars.length rank, cache⟩

/-- `perform_CP(tol, maxiter, progress)`: the loop body's only real statement
references the global name `cpd`, which is defined nowhere in the module, so
the first iteration raises NameError; with `maxiter = 0` the loop body never
runs and the method returns (None) leaving the object untouched.  No factor
update, score computation or convergence check is ever performed. -/
def CoupledTensor.perform_CP (ct : CoupledTensor) (tol : ℚ) (maxiter : ℕ) :
    Except PyErr CoupledTensor :=
  if maxiter = 0 then .ok ct else .error (.nameError "cpd")

/-- Extract the payload of a successful construction (used to name concrete
example objects). -/
def exceptOk (e : Except PyErr CoupledTensor) : CoupledTensor :=
  match e with
  | .ok c => c
  | .error _ => default

/-- Example dataset: axes x (length 2) and y (length 2), one variable `v`
over both axes with finite entries. -/
def egDS : Dataset :=
  ⟨[("x", 2), ("y", 2)],
   [("v", ⟨["x", "y"], fun idx => .fin ((idx.headD 0 : ℚ) + 1)⟩)]⟩

/-- The `CoupledTensor` built over `egDS` with rank 2. -/
def egCT : CoupledTensor := exceptOk (mkCoupledTensor egDS 2)

/-- Claim C1: the ALS driver `perform_CP` is claimed to iterate per-axis
least-squares sweeps with write-back and to stop in Converged or
IterationLimitReached.  The code is a broken stub: for every positive
`maxiter` it raises NameError (undefined name `cpd`) on the first iteration,
performing no sweep, no factor update and no convergence check. -/
theorem c1_perform_CP_stub (ct : CoupledTensor) (tol : ℚ) (maxiter : ℕ)
    (h : 0 < maxiter) :
    ct.perform_CP tol maxiter = .error (.nameError "cpd") := by
  unfold CoupledTensor.perform_CP
  rw [if_neg (by omega)]

/-- Claim C1, witness: the failure is exhibited at a concrete instance with
`tol = 1e-6`, `maxiter = 50`. -/
theorem c1_perform_CP_stub_witness :
    (0 < 50) ∧ egCT.perform_CP (1 / 1000000) 50 = .error (.nameError "cpd") :=
  ⟨by decide, c1_perform_CP_stub egCT (1 / 1000000) 50 (by decide)⟩

/-- The index of a variable among the dataset's variable names (the row of
`self.x["*Weight"].loc[dvars, :]`). -/
def varIdx (ds : Dataset) (v : String) : ℕ := (ds.vars.map Prod.fst).indexOf v

/-- A `CPTensor`: a weight vector and a list of factor matrices. -/
structure CPTensorQ where
  rank : ℕ
  weights : ℕ → ℚ
  factors : List QMat

/-- The factor matrix `self.x["#" + mode]` of an axis.  Factor matrices are
created for every dimension at construction, so the key is always present in
genuine objects; a missing key defaults to an empty matrix. -/
def factorOf (ct : CoupledTensor) (a : Axis) : QMat :=
  (ct.x_factors.lookup a).getD (QMat.ones 0 0)

/-- The cached unfolded matrix `self.unfold[mode]` of an axis (same keying
convention as `factorOf`). -/
def unfoldOf (ct : CoupledTensor) (a : Axis) : FMat :=
  (ct.unfold.lookup a).getD default

/-- The `CPTensor` built by `to_CPTensor` (total part, after the assert): the
variable's weight row and its axes' factor matrices, in the variable's
dimension order. -/
def cpTotal (ct : CoupledTensor) (v : String) : CPTensorQ :=
  ⟨ct.rank, fun r => ct.x_weight.entry (varIdx ct.data v) r,
   (dataVar ct.data v).dims.map (factorOf ct)⟩

/-- `to_CPTensor(dvars)`: `assert dvars in self.dims`, then package the weight
row and factor matrices. -/
def CoupledTensor.to_CPTensor (ct : CoupledTensor) (v : String) :
    Except PyErr CPTensorQ :=
  if (ct.data.vars.lookup v).isSome then .ok (cpTotal ct v)
  else .error .assertionError

/-- `CPTensor.to_tensor()`: the CP reconstruction.  The entry at a
multi-index is the sum over components `r` of
`weights[r] * prod_k factors[k][idx[k], r]`. -/
def CPTensorQ.to_tensor (cp : CPTensorQ) (idx : List ℕ) : ℚ :=
  ((List.range cp.rank).map
    (fun r => cp.weights r * ((cp.factors.zip idx).map
      (fun p => p.1.entry p.2 r)).prod)).sum

/-- `calcR2X(dvars)`: with a variable name, assert it exists, then
`1.0 - vTop / vBottom` for that variable; with no argument, accumulate
`vTop += top; vBottom += bot` over all variables and apply the same formula.
(`to_CPTensor`'s assert always succeeds in the accumulation loop, since
`dvars` ranges over the variable names themselves.) -/
def CoupledTensor.calcR2X (ct : CoupledTensor) (dvars : Option String) :
    Except PyErr FVal :=
  match dvars with
  | none =>
    let p := ct.data.vars.foldl
      (fun (acc : ℚ × ℚ) q =>
        let tb := calcR2X_TnB (shapeOf ct.data (dataVar ct.data q.1))
          (dataVar ct.data q.1).entry (cpTotal ct q.1).to_tensor
        (acc.1 + tb.1, acc.2 + tb.2)) (0, 0)
    .ok (ieee1sub p.1 p.2)
  | some v =>
    if (ct.data.vars.lookup v).isSome then
      let tb := calcR2X_TnB (shapeOf ct.data (dataVar ct.data v))
        (dataVar ct.data v).entry (cpTotal ct v).to_tensor
      .ok (ieee1sub tb.1 tb.2)
    else .error .assertionError

/-- The result of `reconstruct` on one variable: an `xr.DataArray` with the
reconstructed dense data and the per-variable R2X attribute. -/
structure ReconArray where
  name : String
  dims : List Axis
  entry : List ℕ → ℚ
  r2x : FVal

/-- `reconstruct(dvars)`: with no argument the loop header evaluates
`self.data.data_dvars` — a misspelling of `data_vars`, an attribute that does
not exist — so AttributeError is raised before anything is built.  With a
variable name, assert it exists and return the reconstructed `DataArray` with
its R2X attribute. -/
def CoupledTensor.reconstruct (ct : CoupledTensor) (dvars : Option String) :
    Except PyErr ReconArray :=
  match dvars with
  | none => .error (.attributeError "data_dvars")
  | some v =>
    if (ct.data.vars.lookup v).isSome then
      match ct.calcR2X (some v) with
      | .error e => .error e
      | .ok r =>
        .ok ⟨v, (dataVar ct.data v).dims, (cpTotal ct v).to_tensor, r⟩
    else .error .assertionError

/-- The column-wise Khatri-Rao product of two matrices: shapes `(n1, R)` and
`(n2, R)` give `(n1 * n2, R)`; row `i` pairs row `i / n2` of the first with
row `i % n2` of the second (the first factor varies slowest). -/
def kr2 (a b : QMat) : QMat :=
  ⟨a.rows * b.rows, a.cols,
   fun i j => a.entry (i / b.rows) j * b.entry (i % b.rows) j⟩

/-- `tensorly.tenalg.khatri_rao(matrices)`: a singleton list returns its
matrix unchanged; with two or more matrices the column counts are validated
(ValueError on mismatch) and the products are folded left; an empty list
indexes `matrices[0]` and raises IndexError — there is no degenerate
empty-product path. -/
def tl_khatri_rao (ms : List QMat) : Except PyErr QMat :=
  match ms with
  | [] => .error .indexError
  | [m] => .ok m
  | m :: x :: rest =>
    if (x :: rest).all (fun y => y.cols == m.cols) then
      .ok ((x :: rest).foldl kr2 m)
    else .error .valueError

/-- `khatri_rao(mode)`: `assert mode in self.data.coords`; for every variable
(in variable order) whose dimensions include the mode, take the Khatri-Rao
product of the *other* axes' factor matrices in the variable's dimension
order; concatenate the per-variable results along rows. -/
def CoupledTensor.khatri_rao (ct : CoupledTensor) (mode : Axis) :
    Except PyErr QMat :=
  if mode ∈ coordNames ct.data then
    match exMapM
        (fun p => tl_khatri_rao
          ((p.2.dims.filter (· ≠ mode)).map (factorOf ct)))
        (ct.data.vars.filter (fun p => mode ∈ p.2.dims)) with
    | .error e => .error e
    | .ok [] => .error .valueError
    | .ok (x :: rest) => .ok (rest.foldl vconcat2 x)
  else .error .assertionError

/-- Overwrite the factor matrix of one axis (in-place update of
`self.x["#" + mode]`). -/
def setFactor (fs : List (Axis × QMat)) (a : Axis) (m : QMat) :
    List (Axis × QMat) :=
  fs.map (fun p => if p.1 = a then (a, m) else p)

/-- One step of the `initialize("svd")` loop for one axis: `np.linalg.svd` on
the cached unfolded matrix raises LinAlgError when the matrix has non-finite
entries (no zero-filling is performed — the source marks missing-data handling
as a TODO); otherwise the first `min(rank, axis_length)` columns of the factor
matrix are overwritten with the corresponding columns of `U`, the left
singular vectors produced by the SVD oracle `svdU`. -/
def svdStep (svdU : FMat → QMat) (ct : CoupledTensor) (a : Axis) :
    Except PyErr CoupledTensor :=
  let um := unfoldOf ct a
  if um.hasNonFinite then .error .linAlgError
  else
    let U := svdU um
    let m := min ct.rank (axLen ct.data a)
    let old := factorOf ct a
    let upd : QMat := ⟨old.rows, old.cols,
      fun i j => if j < m then U.entry i j else old.entry i j⟩
    .ok { ct with x_factors := setFactor ct.x_factors a upd }

/-- `initialize(method)` (named `initFactorState` here): the "ones" branch
sets every factor matrix to ones; the "svd" branch runs `svdStep` on every
axis in order; any other method name matches neither branch and falls
through; finally — unconditionally — the weight matrix is set to all-ones. -/
def CoupledTensor.initFactorState (ct : CoupledTensor) (method : String)
    (svdU : FMat → QMat) : Except PyErr CoupledTensor :=
  let onesFs : List (Axis × QMat) := (coordNames ct.data).foldl
    (fun fs a => setFactor fs a (QMat.onesLike ((fs.lookup a).getD
      (QMat.ones 0 0)))) ct.x_factors
  let c1 : CoupledTensor :=
    if method = "ones" then { ct with x_factors := onesFs } else ct
  match (if method = "svd" then
      exFoldl (svdStep svdU) c1 (coordNames c1.data) else .ok c1) with
  | .error e => .error e
  | .ok c2 => .ok { c2 with x_weight := QMat.onesLike c2.x_weight }

/-- Claim C8: `reconstruct` with no variable argument is claimed to succeed
with one reconstructed array per variable plus per-variable R2X metadata; in
fact, for every `CoupledTensor`, the loop header misspells `data_vars` as
`data_dvars` and raises AttributeError before building anything. -/
theorem c8_reconstruct_all_typo (ct : CoupledTensor) :
    ct.reconstruct none = .error (.attributeError "data_dvars") := rfl

/-- Looking up a key in an association list built by pairing each key of a
list with a computed value returns the computed value of the first matching
key. -/
theorem lookup_map_pair {β : Type} (g : Axis → β) :
    ∀ (l : List Axis) (a : Axis), a ∈ l →
      (l.map (fun x => (x, g x))).lookup a = some (g a)
  | [], _, h => by cases h
  | x :: xs, a, h => by
    simp only [List.map_cons, List.lookup]
    by_cases hax : a = x
    · simp [hax]
    · have hb : (a == x) = false := beq_false_of_ne hax
      rw [hb]
      exact lookup_map_pair g xs a ((List.mem_cons.mp h).resolve_left hax)

/-- Inversion of a successful construction: the fields of the object are the
ones `__init__` stores. -/
theorem mk_ok_fields (ds : Dataset) (rank : ℕ) (ct : CoupledTensor)
    (h : mkCoupledTensor ds rank = .ok ct) :
    ct.data = ds ∧ ct.rank = rank ∧ ct.x_factors = mkFactors ds rank ∧
      ct.x_weight = QMat.ones ds.vars.length rank := by
  unfold mkCoupledTensor at h
  split at h
  · simp at h
  · cases h
    exact ⟨rfl, rfl, rfl, rfl⟩

/-- Claim C9: immediately after construction (before any initialization),
every declared axis has a factor matrix equal to the all-ones matrix of shape
(axis length x rank), and the weight matrix is the all-ones matrix of shape
(number of variables x rank). -/
theorem c9_ctor_factor_state (ds : Dataset) (rank : ℕ) (ct : CoupledTensor)
    (h : mkCoupledTensor ds rank = .ok ct) :
    (∀ a ∈ coordNames ds,
        ct.x_factors.lookup a = some (QMat.ones (axLen ds a) rank)) ∧
      ct.x_weight = QMat.ones ds.vars.length rank := by
  obtain ⟨-, -, hf, hw⟩ := mk_ok_fields ds rank ct h
  refine ⟨fun a ha => ?_, hw⟩
  rw [hf]
  exact lookup_map_pair (fun x => QMat.ones (axLen ds x) rank) _ a ha

/-- Claim C9, witness: instantiated on the concrete dataset `egDS` (axes x, y
of length 2, one variable) at rank 2. -/
theorem c9_ctor_factor_state_witness :
    egCT.x_factors.lookup "x" = some (QMat.ones (axLen egDS "x") 2) ∧
      egCT.x_weight = QMat.ones egDS.vars.length 2 :=
  ⟨(c9_ctor_factor_state egDS 2 egCT rfl).1 "x" (by decide),
   (c9_ctor_factor_state egDS 2 egCT rfl).2⟩

/-- `xr_unfold` can only fail with ValueError (the empty concatenation). -/
theorem xr_unfold_error (ds : Dataset) (mode : Axis) (e : PyErr)
    (h : xr_unfold ds mode = .error e) : e = .valueError := by
  unfold xr_unfold at h
  split at h
  · cases h; rfl
  · cases h

/-- `xr_unfold` fails (with ValueError) on an axis that no variable uses:
the list of unfolded blocks is empty. -/
theorem xr_unfold_unused (ds : Dataset) (a : Axis)
    (h : ∀ p ∈ ds.vars, a ∉ p.2.dims) :
    xr_unfold ds a = .error .valueError := by
  unfold xr_unfold
  have : ds.vars.filterMap (fun p =>
      if a ∈ p.2.dims then some (tl_unfold ds p.2 (p.2.dims.indexOf a))
      else none) = [] := by
    rw [List.filterMap_eq_nil]
    intro p hp
    rw [if_neg (h p hp)]
  rw [this]

/-- If building the unfolded cache reaches an axis on which `xr_unfold`
fails, the whole construction fails with ValueError (every possible failure
of the cache loop is the empty-concatenation ValueError). -/
theorem cache_error_of_unused (ds : Dataset) :
    ∀ (modes : List Axis) (a : Axis), a ∈ modes →
      xr_unfold ds a = .error .valueError →
      exMapM (fun m =>
        match xr_unfold ds m with
        | .error e => .error e
        | .ok u => .ok (m, u)) modes = .error .valueError
  | [], a, ha, _ => by cases ha
  | m :: ms, a, ha, hfail => by
    unfold exMapM
    cases hm : xr_unfold ds m with
    | error e =>
      have := xr_unfold_error ds m e hm
      subst this
      simp [hm]
    | ok u =>
      have ham : a ≠ m := by
        intro hx
        subst hx
        rw [hfail] at hm
        cases hm
      have hrec := cache_error_of_unused ds ms a
        ((List.mem_cons.mp ha).resolve_left ham) hfail
      simp only [hm]
      rw [hrec]

/-- Claim C10: constructing a `CoupledTensor` over a dataset declaring a
coordinate axis that no variable uses fails at construction time (the cache
concatenates an empty list of matrices for that axis), so no object is
produced. -/
theorem c10_unused_axis_ctor_fails (ds : Dataset) (rank : ℕ) (a : Axis)
    (ha : a ∈ coordNames ds) (hunused : ∀ p ∈ ds.vars, a ∉ p.2.dims) :
    mkCoupledTensor ds rank = .error .valueError := by
  unfold mkCoupledTensor
  rw [cache_error_of_unused ds (coordNames ds) a ha
    (xr_unfold_unused ds a hunused)]

/-- Example dataset that declares an axis `y` used by no variable. -/
def egUnusedDS : Dataset :=
  ⟨[("x", 2), ("y", 3)], [("v", ⟨["x"], fun _ => .fin 1⟩)]⟩

/-- Claim C10, witness: the concrete dataset `egUnusedDS` (axis y of length 3
used by no variable) cannot be constructed at rank 1. -/
theorem c10_unused_axis_ctor_fails_witness :
    ("y" ∈ coordNames egUnusedDS) ∧
      mkCoupledTensor egUnusedDS 1 = .error .valueError :=
  ⟨by decide,
   c10_unused_axis_ctor_fails egUnusedDS 1 "y" (by decide) (by decide)⟩

/-- Claim C7, counterexample: `initialize` with the unrecognized method name
"foo" is claimed to fail with an InvalidArgument error; in fact it returns
normally, leaving the factor matrices untouched but still resetting the
weight matrix to all-ones (a silent partial modification). -/
theorem c7_counterexample :
    egCT.initFactorState "foo" (fun _ => QMat.ones 0 0) =
      .ok { egCT with x_weight := QMat.onesLike egCT.x_weight } := rfl

/-- Claim C7, amended: for every method name other than "ones" and "svd",
`initialize(method)` raises nothing: it matches neither branch, leaves every
factor matrix unchanged, and still unconditionally sets the weight matrix to
all-ones. -/
theorem c7_unknown_method_silent (ct : CoupledTensor) (method : String)
    (svdU : FMat → QMat) (h1 : method ≠ "ones") (h2 : method ≠ "svd") :
    ct.initFactorState method svdU =
      .ok { ct with x_weight := QMat.onesLike ct.x_weight } := by
  simp only [CoupledTensor.initFactorState, if_neg h1, if_neg h2]

/-- Claim C7, witness: the amended statement instantiated at the concrete
object `egCT` with method name "foo". -/
theorem c7_unknown_method_silent_witness :
    ("foo" ≠ "ones") ∧ ("foo" ≠ "svd") ∧
      egCT.initFactorState "foo" (fun _ => QMat.ones 0 0) =
        .ok { egCT with x_weight := QMat.onesLike egCT.x_weight } :=
  ⟨by decide, by decide,
   c7_unknown_method_silent egCT "foo" (fun _ => QMat.ones 0 0)
     (by decide) (by decide)⟩

/-- Example dataset with a NaN entry: axes x, y (length 2 each), one variable
over both axes whose entry at (0,0) is NaN. -/
def egNanDS : Dataset :=
  ⟨[("x", 2), ("y", 2)],
   [("v", ⟨["x", "y"], fun idx => if idx = [0, 0] then .nan else .fin 1⟩)]⟩

/-- The `CoupledTensor` built over `egNanDS` with rank 2. -/
def egNanCT : CoupledTensor := exceptOk (mkCoupledTensor egNanDS 2)

/-- Claim C6: `initialize("svd")` is claimed not to crash on datasets with
non-finite entries (zero-filling them before the singular-vector
computation); in fact the cached unfolded matrix is passed to `np.linalg.svd`
unchanged (the source carries a TODO for missing-data handling), which fails
on the NaN, whatever the SVD oracle would return on finite input. -/
theorem c6_svd_crashes_on_nonfinite (svdU : FMat → QMat) :
    egNanCT.initFactorState "svd" svdU = .error .linAlgError := rfl

/-- Example dataset with one variable `a` (over axis x of length 2) all of
whose entries are NaN. -/
def egAllNanDS : Dataset := ⟨[("x", 2)], [("a", ⟨["x"], fun _ => .nan⟩)]⟩

/-- The `CoupledTensor` built over `egAllNanDS` with rank 2. -/
def egAllNanCT : CoupledTensor := exceptOk (mkCoupledTensor egAllNanDS 2)

/-- Helper: scoring a variable all of whose entries are NaN yields numerator
0 and denominator 0, so `calcR2X` returns the IEEE value of `1.0 - 0.0/0.0`
(NaN) without raising. -/
theorem score_all_nan_aux (ct : CoupledTensor) (v : String)
    (da : DataArray) (hv : ct.data.vars.lookup v = some da)
    (hnan : ∀ idx ∈ allIdx (shapeOf ct.data da), da.entry idx = FVal.nan) :
    ct.calcR2X (some v) = .ok FVal.nan := by
  have hda : dataVar ct.data v = da := by
    simp [dataVar, hv]
  have htop : ((allIdx (shapeOf ct.data da)).map (fun idx =>
      ((cpTotal ct v).to_tensor idx * maskQ (da.entry idx) -
        (da.entry idx).nan_to_num) ^ 2)).sum = 0 := by
    apply List.sum_eq_zero
    intro x hx
    obtain ⟨idx, hidx, rfl⟩ := List.mem_map.mp hx
    rw [hnan idx hidx]
    simp [maskQ, FVal.isfinite, FVal.nan_to_num]
  have hbot : ((allIdx (shapeOf ct.data da)).map (fun idx =>
      ((da.entry idx).nan_to_num) ^ 2)).sum = 0 := by
    apply List.sum_eq_zero
    intro x hx
    obtain ⟨idx, hidx, rfl⟩ := List.mem_map.mp hx
    rw [hnan idx hidx]
    simp [FVal.nan_to_num]
  simp only [CoupledTensor.calcR2X, hv, Option.isSome_some, if_true, hda,
    calcR2X_TnB, htop, hbot]
  simp [ieee1sub]

/-- Claim C3, counterexample: scoring a variable with zero finite entries is
claimed to fail explicitly with a DegenerateInput error and never return NaN;
in fact, on the concrete all-NaN variable `a`, `calcR2X` raises nothing and
returns NaN (the IEEE value of `1.0 - 0.0/0.0`). -/
theorem c3_counterexample :
    egAllNanCT.calcR2X (some "a") = .ok FVal.nan :=
  score_all_nan_aux egAllNanCT "a" ⟨["x"], fun _ => FVal.nan⟩ rfl
    (fun _ _ => rfl)

/-- Claim C3, amended: scoring a variable all of whose entries are NaN does
not raise: both the numerator and the denominator evaluate to 0 and
`calcR2X` returns the IEEE quotient NaN; the computation only reads the
Factor State (it is a pure function of the object), so the state is
unchanged.  (Note the claim's parenthetical "denominator 0" already fails
for infinite entries, which `np.nan_to_num` turns into ±MAX_FLOAT.) -/
theorem c3_all_nan_score_is_nan (ct : CoupledTensor) (v : String)
    (da : DataArray) (hv : ct.data.vars.lookup v = some da)
    (hnan : ∀ idx ∈ allIdx (shapeOf ct.data da), da.entry idx = FVal.nan) :
    ct.calcR2X (some v) = .ok FVal.nan :=
  score_all_nan_aux ct v da hv hnan

/-- Claim C3, witness: the amended statement instantiated on the concrete
all-NaN variable `a` of `egAllNanDS`. -/
theorem c3_all_nan_score_is_nan_witness :
    (egAllNanCT.data.vars.lookup "a" = some ⟨["x"], fun _ => FVal.nan⟩) ∧
      egAllNanCT.calcR2X (some "a") = .ok FVal.nan :=
  ⟨rfl, c3_all_nan_score_is_nan egAllNanCT "a" ⟨["x"], fun _ => FVal.nan⟩
    rfl (fun idx _ => rfl)⟩

/-- Spec side (claim C2's words): the observed array is "the variable's array
with non-finite entries zeroed". -/
def zeroNonFinite : FVal → ℚ
  | .fin q => q
  | _ => 0

/-- Spec side (claim C2): a variable's squared-error numerator
`‖recon·mask − observed‖²` with the claim's zeroed observed array. -/
def claimTopVar (ct : CoupledTensor) (v : String) : ℚ :=
  ((allIdx (shapeOf ct.data (dataVar ct.data v))).map (fun idx =>
    ((cpTotal ct v).to_tensor idx * maskQ ((dataVar ct.data v).entry idx) -
      zeroNonFinite ((dataVar ct.data v).entry idx)) ^ 2)).sum

/-- Spec side (claim C2): a variable's squared-norm denominator
`‖observed‖²` with the claim's zeroed observed array. -/
def claimBotVar (ct : CoupledTensor) (v : String) : ℚ :=
  ((allIdx (shapeOf ct.data (dataVar ct.data v))).map (fun idx =>
    zeroNonFinite ((dataVar ct.data v).entry idx) ^ 2)).sum

/-- Spec side (claim C2): the claimed global score,
`1 − (Σ numerators) / (Σ denominators)` over all variables. -/
def claimGlobalR2X (ct : CoupledTensor) : ℚ :=
  1 - ((ct.data.vars.map (fun p => claimTopVar ct p.1)).sum) /
      ((ct.data.vars.map (fun p => claimBotVar ct p.1)).sum)

/-- Amended spec side (claim C2): the per-variable numerator with the
observed array as the code actually forms it — `np.nan_to_num` (NaN zeroed,
±inf replaced by ±MAX_FLOAT). -/
def specTopVar (ct : CoupledTensor) (v : String) : ℚ :=
  ((allIdx (shapeOf ct.data (dataVar ct.data v))).map (fun idx =>
    ((cpTotal ct v).to_tensor idx * maskQ ((dataVar ct.data v).entry idx) -
      ((dataVar ct.data v).entry idx).nan_to_num) ^ 2)).sum

/-- Amended spec side (claim C2): the per-variable denominator with the
`np.nan_to_num` observed array. -/
def specBotVar (ct : CoupledTensor) (v : String) : ℚ :=
  ((allIdx (shapeOf ct.data (dataVar ct.data v))).map (fun idx =>
    ((dataVar ct.data v).entry idx).nan_to_num ^ 2)).sum

/-- Accumulating two sums pairwise over a list equals taking the two mapped
sums separately. -/
theorem foldl_pair_sum {α : Type} (f g : α → ℚ) :
    ∀ (l : List α) (t b : ℚ),
      l.foldl (fun acc q => (acc.1 + f q, acc.2 + g q)) (t, b) =
        (t + (l.map f).sum, b + (l.map g).sum)
  | [], t, b => by simp
  | x :: xs, t, b => by
    simp only [List.foldl_cons, List.map_cons, List.sum_cons]
    rw [foldl_pair_sum f g xs]
    rw [Prod.mk.injEq]
    exact ⟨by ring, by ring⟩

/-- Helper: the global `calcR2X()` equals the IEEE evaluation of
`1 − (Σ per-variable numerators) / (Σ per-variable denominators)`: the
accumulation loop is the variance-weighted combination, not an average of
per-variable scores. -/
theorem calcR2X_none_eq (ct : CoupledTensor) :
    ct.calcR2X none = .ok (ieee1sub
      ((ct.data.vars.map (fun p => specTopVar ct p.1)).sum)
      ((ct.data.vars.map (fun p => specBotVar ct p.1)).sum)) := by
  simp only [CoupledTensor.calcR2X]
  rw [foldl_pair_sum
    (fun q : String × DataArray =>
      (calcR2X_TnB (shapeOf ct.data (dataVar ct.data q.1))
        (dataVar ct.data q.1).entry (cpTotal ct q.1).to_tensor).1)
    (fun q : String × DataArray =>
      (calcR2X_TnB (shapeOf ct.data (dataVar ct.data q.1))
        (dataVar ct.data q.1).entry (cpTotal ct q.1).to_tensor).2)]
  simp only [calcR2X_TnB, specTopVar, specBotVar, zero_add]

/-- Claim C2, amended: for every dataset whose variables each have at least
one finite entry, the no-argument `calcR2X` returns the IEEE evaluation of
`1 − (Σ over variables of ‖recon·mask − observed‖²) / (Σ of ‖observed‖²)`,
where observed is the array under `np.nan_to_num` (NaN zeroed, ±inf replaced
by ±MAX_FLOAT — not simply "non-finite entries zeroed") and mask is the
finiteness mask: the variance-weighted combination of per-variable numerators
and denominators, not the average of the per-variable scores. -/
theorem c2_global_score_weighted (ct : CoupledTensor)
    (hfin : ∀ p ∈ ct.data.vars, ∃ idx ∈ allIdx (shapeOf ct.data p.2),
      (p.2.entry idx).isfinite) :
    ct.calcR2X none = .ok (ieee1sub
      ((ct.data.vars.map (fun p => specTopVar ct p.1)).sum)
      ((ct.data.vars.map (fun p => specBotVar ct p.1)).sum)) :=
  calcR2X_none_eq ct

/-- Claim C2, witness: the amended statement instantiated on the concrete
all-finite dataset `egDS` at rank 2. -/
theorem c2_global_score_weighted_witness :
    egCT.calcR2X none = .ok (ieee1sub
      ((egCT.data.vars.map (fun p => specTopVar egCT p.1)).sum)
      ((egCT.data.vars.map (fun p => specBotVar egCT p.1)).sum)) :=
  c2_global_score_weighted egCT (by decide)

/-- Example dataset with an infinite entry: one variable `w` over axis x of
length 2, entries [+inf, 1] (so it has at least one finite entry, as the
claim requires). -/
def egInfDS : Dataset :=
  ⟨[("x", 2)],
   [("w", ⟨["x"], fun idx => if idx = [0] then .pinf else .fin 1⟩)]⟩

/-- The `CoupledTensor` built over `egInfDS` with rank 1. -/
def egInfCT : CoupledTensor := exceptOk (mkCoupledTensor egInfDS 1)

/-- The CP reconstruction of `w` in the all-ones constructor state is
identically 1. -/
theorem egInf_recon (i : ℕ) : (cpTotal egInfCT "w").to_tensor [i] = 1 := by
  have hw : egInfCT.x_weight = QMat.ones 1 1 := rfl
  have hfx : factorOf egInfCT "x" = QMat.ones (axLen egInfDS "x") 1 := rfl
  have hdims : (dataVar egInfCT.data "w").dims = ["x"] := rfl
  have hrank : egInfCT.rank = 1 := rfl
  have hr1 : List.range 1 = [0] := rfl
  simp only [cpTotal, CPTensorQ.to_tensor, hdims, hrank, hw, hfx, hr1,
    List.map_cons, List.map_nil, List.zip_cons_cons, List.zip_nil_left,
    QMat.ones, List.prod_cons, List.prod_nil, List.sum_cons, List.sum_nil]
  norm_num

/-- Claim C2, counterexample: on the concrete dataset `egInfDS` (with the
claim's hypothesis satisfied) the claimed formula — observed = array with
non-finite entries zeroed — yields 1, but the code returns a different
value: `np.nan_to_num` replaces +inf by MAX_FLOAT (not 0), so the code's
numerator is MAX_FLOAT² and its denominator MAX_FLOAT² + 1. -/
theorem c2_counterexample :
    claimGlobalR2X egInfCT = 1 ∧
      egInfCT.calcR2X none ≠ .ok (.fin (claimGlobalR2X egInfCT)) := by
  have hda : dataVar egInfCT.data "w" =
      ⟨["x"], fun idx => if idx = [0] then .pinf else .fin 1⟩ := rfl
  have hidx : allIdx (shapeOf egInfCT.data
      (⟨["x"], fun idx => if idx = [0] then .pinf else .fin 1⟩ : DataArray)) =
      [[0], [1]] := rfl
  have hvars : egInfCT.data.vars =
      [("w", ⟨["x"], fun idx => if idx = [0] then .pinf else .fin 1⟩)] := rfl
  have hclaimtop : claimTopVar egInfCT "w" = 0 := by
    simp only [claimTopVar, hda, hidx, List.map_cons, List.map_nil,
      List.sum_cons, List.sum_nil, egInf_recon]
    norm_num [zeroNonFinite, maskQ, FVal.isfinite]
  have hclaimbot : claimBotVar egInfCT "w" = 1 := by
    simp only [claimBotVar, hda, hidx, List.map_cons, List.map_nil,
      List.sum_cons, List.sum_nil]
    norm_num [zeroNonFinite]
  have hclaim : claimGlobalR2X egInfCT = 1 := by
    simp only [claimGlobalR2X, hvars, List.map_cons, List.map_nil,
      List.sum_cons, List.sum_nil]
    rw [hclaimtop, hclaimbot]
    norm_num
  have hspectop : specTopVar egInfCT "w" = floatMax ^ 2 := by
    simp only [specTopVar, hda, hidx, List.map_cons, List.map_nil,
      List.sum_cons, List.sum_nil, egInf_recon]
    norm_num [FVal.nan_to_num, maskQ, FVal.isfinite]
  have hspecbot : specBotVar egInfCT "w" = floatMax ^ 2 + 1 := by
    simp only [specBotVar, hda, hidx, List.map_cons, List.map_nil,
      List.sum_cons, List.sum_nil]
    norm_num [FVal.nan_to_num]
  have hMpos : (0 : ℚ) < floatMax := by
    have h2 : (2 : ℚ) ^ 971 < 2 ^ 1024 := by
      have := pow_lt_pow_right₀ (a := (2 : ℚ)) (by norm_num)
        (show 971 < 1024 by norm_num)
      exact this
    simp only [floatMax]
    linarith
  have hsq : (0 : ℚ) < floatMax ^ 2 := pow_pos hMpos 2
  have hB : (floatMax ^ 2 + 1 : ℚ) ≠ 0 :=
    ne_of_gt (show (0 : ℚ) < floatMax ^ 2 + 1 by linarith)
  have hcode : egInfCT.calcR2X none =
      .ok (.fin (1 - floatMax ^ 2 / (floatMax ^ 2 + 1))) := by
    rw [calcR2X_none_eq, hvars]
    simp only [List.map_cons, List.map_nil, List.sum_cons, List.sum_nil]
    rw [hspectop, hspecbot, add_zero, add_zero]
    unfold ieee1sub
    rw [if_neg hB]
  refine ⟨hclaim, ?_⟩
  rw [hclaim, hcode]
  intro hcontra
  have h1 : (1 - floatMax ^ 2 / (floatMax ^ 2 + 1) : ℚ) = 1 :=
    FVal.fin.inj (Except.ok.inj hcontra)
  have h2 : (floatMax ^ 2 / (floatMax ^ 2 + 1) : ℚ) = 0 := by linarith
  have h3 : (floatMax ^ 2 : ℚ) = 0 := by
    rcases div_eq_zero_iff.mp h2 with h | h
    · exact h
    · exact absurd h hB
  linarith

/-- Example dataset with a single-axis variable: `s` depends only on axis x. -/
def egSingleDS : Dataset :=
  ⟨[("x", 2)], [("s", ⟨["x"], fun idx => .fin ((idx.headD 0 : ℚ))⟩)]⟩

/-- The `CoupledTensor` built over `egSingleDS` with rank 2. -/
def egSingleCT : CoupledTensor := exceptOk (mkCoupledTensor egSingleDS 2)

/-- The row count of a left fold of Khatri-Rao products is the product of the
row counts. -/
theorem foldl_kr2_rows :
    ∀ (l : List QMat) (acc : QMat),
      (l.foldl kr2 acc).rows = acc.rows * (l.map QMat.rows).prod
  | [], acc => by simp
  | x :: xs, acc => by
    simp only [List.foldl_cons, List.map_cons, List.prod_cons]
    rw [foldl_kr2_rows xs (kr2 acc x)]
    show acc.rows * x.rows * _ = _
    ring

/-- The row count of a left fold of row concatenations is the sum of the row
counts. -/
theorem foldl_vconcat2_rows :
    ∀ (l : List QMat) (acc : QMat),
      (l.foldl vconcat2 acc).rows = acc.rows + (l.map QMat.rows).sum
  | [], acc => by simp
  | x :: xs, acc => by
    simp only [List.foldl_cons, List.map_cons, List.sum_cons]
    rw [foldl_vconcat2_rows xs (vconcat2 acc x)]
    show acc.rows + x.rows + _ = _
    omega

/-- The column count of a left fold of column concatenations is the sum of
the column counts. -/
theorem foldl_hconcat2_cols :
    ∀ (l : List FMat) (acc : FMat),
      (l.foldl hconcat2 acc).cols = acc.cols + (l.map FMat.cols).sum
  | [], acc => by simp
  | x :: xs, acc => by
    simp only [List.foldl_cons, List.map_cons, List.sum_cons]
    rw [foldl_hconcat2_cols xs (hconcat2 acc x)]
    show acc.cols + x.cols + _ = _
    omega

/-- A `filterMap` whose function is an if-then-some-else-none is a `filter`
followed by a `map`. -/
theorem filterMap_ite {α β : Type} {p : α → Prop} [DecidablePred p]
    (g : α → β) :
    ∀ l : List α, l.filterMap (fun x => if p x then some (g x) else none) =
      (l.filter (fun x => decide (p x))).map g
  | [] => rfl
  | x :: xs => by
    by_cases hx : p x
    · simp [hx, filterMap_ite g xs]
    · simp [hx, filterMap_ite g xs]

/-- `tensorly`'s Khatri-Rao succeeds on a non-empty list of matrices of equal
column count, returning the folded product. -/
theorem tl_khatri_rao_ok (m : QMat) (rest : List QMat) (c : ℕ)
    (hcols : ∀ x ∈ m :: rest, x.cols = c) :
    tl_khatri_rao (m :: rest) = .ok (rest.foldl kr2 m) := by
  cases rest with
  | nil => rfl
  | cons y ys =>
    have hall : ((y :: ys).all fun z => z.cols == m.cols) = true := by
      rw [List.all_eq_true]
      intro x hx
      have h1 := hcols x (List.mem_cons_of_mem m hx)
      have h2 := hcols m (List.mem_cons_self m (y :: ys))
      rw [h1, h2]
      exact beq_self_eq_true c
    show (if ((y :: ys).all fun z => z.cols == m.cols) = true then
        Except.ok ((y :: ys).foldl kr2 m)
      else Except.error PyErr.valueError) = Except.ok ((y :: ys).foldl kr2 m)
    rw [hall]
    simp

/-- `exMapM` with pointwise-known successful results. -/
theorem exMapM_ok_rows (f : α → Except PyErr QMat) (r : α → ℕ) :
    ∀ l : List α, (∀ x ∈ l, ∃ y, f x = .ok y ∧ y.rows = r x) →
      ∃ ms, exMapM f l = .ok ms ∧ ms.map QMat.rows = l.map r
  | [], _ => ⟨[], rfl, rfl⟩
  | x :: xs, h => by
    obtain ⟨y, hy, hyr⟩ := h x (List.mem_cons_self x xs)
    obtain ⟨ms, hms, hmsr⟩ := exMapM_ok_rows f r xs
      (fun z hz => h z (List.mem_cons_of_mem x hz))
    refine ⟨y :: ms, ?_, ?_⟩
    · unfold exMapM
      rw [hy, hms]
    · simp only [List.map_cons, hmsr, hyr]

/-- If every element of a list either succeeds or fails with IndexError, and
some element fails, the whole `exMapM` fails with IndexError. -/
theorem exMapM_error_idx (f : α → Except PyErr β) :
    ∀ l : List α,
      (∀ x ∈ l, f x = .error .indexError ∨ ∃ y, f x = .ok y) →
      (∃ x ∈ l, f x = .error .indexError) →
      exMapM f l = .error .indexError
  | [], _, hex => by
    obtain ⟨x, hx, -⟩ := hex
    cases hx
  | x :: xs, hall, hex => by
    rcases hall x (List.mem_cons_self x xs) with hx | ⟨y, hy⟩
    · unfold exMapM
      rw [hx]
    · have hxs : ∃ z ∈ xs, f z = .error .indexError := by
        obtain ⟨z, hz, hzf⟩ := hex
        rcases List.mem_cons.mp hz with rfl | hz2
        · rw [hy] at hzf
          cases hzf
        · exact ⟨z, hz2, hzf⟩
      have := exMapM_error_idx f xs
        (fun z hz => hall z (List.mem_cons_of_mem x hz)) hxs
      unfold exMapM
      rw [hy, this]

/-- On a duplicate-free list, removing the (first) occurrence of a member by
index is the same as filtering it out. -/
theorem eraseIdx_indexOf_eq_filter (a : Axis) :
    ∀ (l : List Axis), l.Nodup → a ∈ l →
      l.eraseIdx (l.indexOf a) = l.filter (fun b => decide (b ≠ a))
  | [], _, h => by cases h
  | x :: xs, hnd, h => by
    rcases List.nodup_cons.mp hnd with ⟨hx, hxs⟩
    by_cases hax : x = a
    · subst hax
      rw [List.indexOf_cons_self]
      show xs = _
      rw [List.filter_cons]
      have : (decide (x ≠ x)) = false := by simp
      rw [this]
      simp only [Bool.false_eq_true, if_false]
      symm
      rw [List.filter_eq_self]
      intro b hb
      have : b ≠ x := fun hbx => hx (hbx ▸ hb)
      simpa using this
    · have hmem : a ∈ xs := (List.mem_cons.mp h).resolve_left
        (fun hh => hax hh.symm)
      have hne : x ≠ a := hax
      rw [List.indexOf_cons_ne _ (by simpa using hne)]
      show x :: xs.eraseIdx (xs.indexOf a) = _
      rw [List.filter_cons]
      have : (decide (x ≠ a)) = true := by simpa using hne
      rw [this]
      simp only [if_true]
      rw [eraseIdx_indexOf_eq_filter a xs hxs hmem]

/-- The factor matrix of an axis, immediately after construction. -/
theorem factorOf_mk (ds : Dataset) (rank : ℕ) (ct : CoupledTensor)
    (hok : mkCoupledTensor ds rank = .ok ct) (b : Axis)
    (hb : b ∈ coordNames ds) :
    factorOf ct b = QMat.ones (axLen ds b) rank := by
  obtain ⟨-, -, hf, -⟩ := mk_ok_fields ds rank ct hok
  unfold factorOf
  rw [hf]
  unfold mkFactors
  rw [lookup_map_pair (fun x => QMat.ones (axLen ds x) rank) _ b hb]
  rfl

/-- Every axis reached by a successful cache construction has a successful
unfold, stored in the cache under its name. -/
theorem cache_lookup (ds : Dataset) :
    ∀ (modes : List Axis) (cache : List (Axis × FMat)),
      exMapM (fun m =>
        match xr_unfold ds m with
        | .error e => .error e
        | .ok u => .ok (m, u)) modes = .ok cache →
      ∀ a ∈ modes, ∃ u, xr_unfold ds a = .ok u ∧ cache.lookup a = some u
  | [], _, _, a, ha => by cases ha
  | m :: ms, cache, hok, a, ha => by
    unfold exMapM at hok
    cases hm : xr_unfold ds m with
    | error e =>
      rw [hm] at hok
      cases hok
    | ok u0 =>
      rw [hm] at hok
      cases hrest : exMapM (fun m =>
          match xr_unfold ds m with
          | .error e => .error e
          | .ok u => .ok (m, u)) ms with
      | error e =>
        rw [hrest] at hok
        cases hok
      | ok cache2 =>
        rw [hrest] at hok
        cases hok
        rcases List.mem_cons.mp ha with rfl | ha2
        · refine ⟨u0, hm, ?_⟩
          simp [List.lookup]
        · obtain ⟨u, hu, hlook⟩ := cache_lookup ds ms cache2 hrest a ha2
          refine ⟨u, hu, ?_⟩
          by_cases ham : a = m
          · subst ham
            rw [hu] at hm
            cases hm
            simp [List.lookup]
          · simp only [List.lookup]
            rw [show (a == m) = false from beq_false_of_ne ham]
            exact hlook

/-- The unfolded cache of a constructed object: lookup of any declared axis
yields the `xr_unfold` result. -/
theorem unfoldOf_mk (ds : Dataset) (rank : ℕ) (ct : CoupledTensor)
    (hok : mkCoupledTensor ds rank = .ok ct) (a : Axis)
    (ha : a ∈ coordNames ds) :
    ∃ u, xr_unfold ds a = .ok u ∧ unfoldOf ct a = u := by
  unfold mkCoupledTensor at hok
  split at hok
  · cases hok
  · rename_i cache hcache
    cases hok
    obtain ⟨u, hu, hlook⟩ := cache_lookup ds (coordNames ds) cache hcache a ha
    exact ⟨u, hu, by unfold unfoldOf; rw [hlook]; rfl⟩

/-- A successful `xr_unfold` has as many columns as the sum, over the
variables that contain the axis, of the product of the other axes' lengths
(with the axis removed at its index position). -/
theorem xr_unfold_ok_cols (ds : Dataset) (a : Axis) (u : FMat)
    (h : xr_unfold ds a = .ok u) :
    u.cols = ((ds.vars.filter (fun p => decide (a ∈ p.2.dims))).map
      (fun p => ((p.2.dims.eraseIdx (p.2.dims.indexOf a)).map
        (axLen ds)).prod)).sum := by
  unfold xr_unfold at h
  rw [filterMap_ite (fun p : String × DataArray =>
    tl_unfold ds p.2 (p.2.dims.indexOf a))] at h
  cases hfl : (ds.vars.filter (fun p => decide (a ∈ p.2.dims))).map
      (fun p : String × DataArray =>
        tl_unfold ds p.2 (p.2.dims.indexOf a)) with
  | nil =>
    rw [hfl] at h
    cases h
  | cons q qs =>
    rw [hfl] at h
    cases h
    have hcols : (List.foldl hconcat2 q qs).cols =
        q.cols + (qs.map FMat.cols).sum := foldl_hconcat2_cols qs q
    rw [hcols]
    have : (q.cols + (qs.map FMat.cols).sum) = ((q :: qs).map FMat.cols).sum := by
      simp
    rw [this, ← hfl, List.map_map]
    rfl

/-- Helper: in a constructed object, a variable's per-variable Khatri-Rao
call either fails with IndexError (empty factor list, i.e. the variable has
no other axis) or succeeds (the column check passes since every factor
matrix has `rank` columns). -/
theorem kr_var_ok_or_idx (ds : Dataset) (rank : ℕ) (ct : CoupledTensor)
    (hok : mkCoupledTensor ds rank = .ok ct)
    (hwf : ∀ p ∈ ds.vars, ∀ b ∈ p.2.dims, b ∈ coordNames ds)
    (a : Axis) (p : String × DataArray) (hp : p ∈ ds.vars) :
    tl_khatri_rao ((p.2.dims.filter (fun b => decide (b ≠ a))).map
        (factorOf ct)) = .error .indexError ∨
      ∃ y, tl_khatri_rao ((p.2.dims.filter (fun b => decide (b ≠ a))).map
        (factorOf ct)) = .ok y := by
  cases hfl : p.2.dims.filter (fun b => decide (b ≠ a)) with
  | nil =>
    left
    rfl
  | cons b bs =>
    right
    rw [List.map_cons]
    refine ⟨(bs.map (factorOf ct)).foldl kr2 (factorOf ct b),
      tl_khatri_rao_ok (factorOf ct b) (bs.map (factorOf ct)) rank ?_⟩
    intro x hx
    rw [← List.map_cons] at hx
    obtain ⟨c, hc, rfl⟩ := List.mem_map.mp hx
    have hcdims : c ∈ p.2.dims :=
      List.mem_of_mem_filter (show c ∈ p.2.dims.filter
        (fun b => decide (b ≠ a)) by rw [hfl]; exact hc)
    rw [factorOf_mk ds rank ct hok c (hwf p hp c hcdims)]
    rfl

/-- Claim C4, amended: a variable whose axis list contains only the target
axis makes `khatri_rao(axis)` fail: its contribution is the Khatri-Rao of an
empty list of matrices, which the external routine rejects by indexing
`matrices[0]` (IndexError).  There is no degenerate (1×R)-ones path. -/
theorem c4_single_axis_kr_fails (ds : Dataset) (rank : ℕ)
    (ct : CoupledTensor)
    (hok : mkCoupledTensor ds rank = .ok ct)
    (hwf : ∀ p ∈ ds.vars, ∀ b ∈ p.2.dims, b ∈ coordNames ds)
    (v : String) (da : DataArray) (hmem : (v, da) ∈ ds.vars)
    (a : Axis) (hone : da.dims = [a]) :
    ct.khatri_rao a = .error .indexError := by
  obtain ⟨hdata, -, -, -⟩ := mk_ok_fields ds rank ct hok
  have ha : a ∈ coordNames ds := hwf (v, da) hmem a
    (by rw [hone]; exact List.mem_singleton_self a)
  unfold CoupledTensor.khatri_rao
  rw [hdata, if_pos ha]
  have hmapm : exMapM
      (fun p => tl_khatri_rao
        ((p.2.dims.filter (fun b => decide (b ≠ a))).map (factorOf ct)))
      (ds.vars.filter (fun p => decide (a ∈ p.2.dims))) =
      .error .indexError := by
    apply exMapM_error_idx
    · intro x hx
      exact kr_var_ok_or_idx ds rank ct hok hwf a x (List.mem_of_mem_filter hx)
    · refine ⟨(v, da), ?_, ?_⟩
      · apply List.mem_filter.mpr
        refine ⟨hmem, ?_⟩
        rw [show ((v, da).2.dims = da.dims) from rfl, hone]
        simp
      · rw [show ((v, da).2.dims = da.dims) from rfl, hone]
        have : ([a].filter (fun b => decide (b ≠ a))) = [] := by simp
        rw [this]
        rfl
  rw [hmapm]

/-- Claim C4, counterexample: the claim says `khatri_rao(axis)` succeeds and
a single-axis variable contributes a (1×R) all-ones block; on the concrete
dataset `egSingleDS` (variable `s` whose only axis is x), `khatri_rao("x")`
instead fails with IndexError. -/
theorem c4_counterexample :
    egSingleCT.khatri_rao "x" = .error .indexError := rfl

/-- Claim C4, witness: the amended statement instantiated on `egSingleDS`. -/
theorem c4_single_axis_kr_fails_witness :
    (("s", (⟨["x"], fun idx => .fin ((idx.headD 0 : ℚ))⟩ : DataArray)) ∈
        egSingleDS.vars) ∧
      egSingleCT.khatri_rao "x" = .error .indexError :=
  ⟨List.mem_cons_self _ _,
   c4_single_axis_kr_fails egSingleDS 2 egSingleCT rfl (by decide) "s"
     ⟨["x"], fun idx => .fin ((idx.headD 0 : ℚ))⟩ (List.mem_cons_self _ _)
     "x" rfl⟩

/-- Helper: in a constructed object, a variable with at least one other axis
has a successful per-variable Khatri-Rao whose row count is the product of
the other axes' lengths. -/
theorem kr_var_rows (ds : Dataset) (rank : ℕ) (ct : CoupledTensor)
    (hok : mkCoupledTensor ds rank = .ok ct)
    (hwf : ∀ p ∈ ds.vars, ∀ b ∈ p.2.dims, b ∈ coordNames ds)
    (a : Axis) (p : String × DataArray) (hp : p ∈ ds.vars)
    (hne : p.2.dims.filter (fun b => decide (b ≠ a)) ≠ []) :
    ∃ y, tl_khatri_rao ((p.2.dims.filter (fun b => decide (b ≠ a))).map
        (factorOf ct)) = .ok y ∧
      y.rows = ((p.2.dims.filter (fun b => decide (b ≠ a))).map
        (axLen ds)).prod := by
  have hfact : ∀ c ∈ p.2.dims.filter (fun b => decide (b ≠ a)),
      factorOf ct c = QMat.ones (axLen ds c) rank := by
    intro c hc
    exact factorOf_mk ds rank ct hok c
      (hwf p hp c (List.mem_of_mem_filter hc))
  cases hfl : p.2.dims.filter (fun b => decide (b ≠ a)) with
  | nil => exact absurd hfl hne
  | cons b bs =>
    rw [hfl] at hfact
    rw [List.map_cons]
    refine ⟨(bs.map (factorOf ct)).foldl kr2 (factorOf ct b), ?_, ?_⟩
    · apply tl_khatri_rao_ok (factorOf ct b) (bs.map (factorOf ct)) rank
      intro x hx
      rw [← List.map_cons] at hx
      obtain ⟨c, hc, rfl⟩ := List.mem_map.mp hx
      rw [hfact c hc]
      rfl
    · rw [foldl_kr2_rows, List.map_map]
      rw [List.map_cons, List.prod_cons]
      rw [hfact b (List.mem_cons_self b bs)]
      have : bs.map (QMat.rows ∘ factorOf ct) = bs.map (axLen ds) :=
        List.map_congr_left (fun c hc => by
          show (factorOf ct c).rows = axLen ds c
          rw [hfact c (List.mem_cons_of_mem b hc)]
          rfl)
      rw [this]
      rfl

/-- Claim C5, amended: for every constructed object and declared axis, *if*
every variable containing the axis also has another axis (so no per-variable
Khatri-Rao list is empty), `khatri_rao(axis)` succeeds and its row count
equals the column count of the cached `unfold(axis)`; both equal the sum,
over the variables containing the axis in variable order, of the product of
the lengths of that variable's other axes.  (Without the extra hypothesis
the claim fails: a single-axis variable makes `khatri_rao` raise, see the
counterexample.) -/
theorem c5_unfold_cols_eq_kr_rows (ds : Dataset) (rank : ℕ)
    (ct : CoupledTensor) (a : Axis)
    (hok : mkCoupledTensor ds rank = .ok ct)
    (hwf : ∀ p ∈ ds.vars, ∀ b ∈ p.2.dims, b ∈ coordNames ds)
    (hnd : ∀ p ∈ ds.vars, p.2.dims.Nodup)
    (ha : a ∈ coordNames ds)
    (hpart : ∀ p ∈ ds.vars, a ∈ p.2.dims →
      p.2.dims.filter (fun b => decide (b ≠ a)) ≠ []) :
    (ct.khatri_rao a).toOption.map QMat.rows =
      some (((ds.vars.filter (fun p => decide (a ∈ p.2.dims))).map
        (fun p => ((p.2.dims.filter (fun b => decide (b ≠ a))).map
          (axLen ds)).prod)).sum) ∧
    (unfoldOf ct a).cols =
      ((ds.vars.filter (fun p => decide (a ∈ p.2.dims))).map
        (fun p => ((p.2.dims.filter (fun b => decide (b ≠ a))).map
          (axLen ds)).prod)).sum := by
  obtain ⟨hdata, -, -, -⟩ := mk_ok_fields ds rank ct hok
  obtain ⟨u, hu, hueq⟩ := unfoldOf_mk ds rank ct hok a ha
  have hfil : ds.vars.filter (fun p => decide (a ∈ p.2.dims)) ≠ [] := by
    intro hcon
    unfold xr_unfold at hu
    rw [filterMap_ite (fun p : String × DataArray =>
      tl_unfold ds p.2 (p.2.dims.indexOf a)), hcon] at hu
    cases hu
  have hcolside : (unfoldOf ct a).cols =
      ((ds.vars.filter (fun p => decide (a ∈ p.2.dims))).map
        (fun p => ((p.2.dims.filter (fun b => decide (b ≠ a))).map
          (axLen ds)).prod)).sum := by
    rw [hueq, xr_unfold_ok_cols ds a u hu]
    apply congrArg List.sum
    apply List.map_congr_left
    intro p hp
    have hpv : p ∈ ds.vars := List.mem_of_mem_filter hp
    have hadims : a ∈ p.2.dims := by
      have := (List.mem_filter.mp hp).2
      simpa using this
    rw [eraseIdx_indexOf_eq_filter a p.2.dims (hnd p hpv) hadims]
  refine ⟨?_, hcolside⟩
  unfold CoupledTensor.khatri_rao
  rw [hdata, if_pos ha]
  obtain ⟨ms, hms, hmsrows⟩ := exMapM_ok_rows
    (fun p : String × DataArray => tl_khatri_rao
      ((p.2.dims.filter (fun b => decide (b ≠ a))).map (factorOf ct)))
    (fun p : String × DataArray =>
      ((p.2.dims.filter (fun b => decide (b ≠ a))).map (axLen ds)).prod)
    (ds.vars.filter (fun p => decide (a ∈ p.2.dims)))
    (by
      intro p hp
      have hpv : p ∈ ds.vars := List.mem_of_mem_filter hp
      have hadims : a ∈ p.2.dims := by
        have := (List.mem_filter.mp hp).2
        simpa using this
      exact kr_var_rows ds rank ct hok hwf a p hpv (hpart p hpv hadims))
  rw [hms]
  cases hms2 : ms with
  | nil =>
    exfalso
    rw [hms2] at hmsrows
    have := congrArg List.length hmsrows
    simp only [List.map_nil, List.length_nil, List.length_map] at this
    exact hfil (List.eq_nil_of_length_eq_zero this.symm)
  | cons y ys =>
    show some ((ys.foldl vconcat2 y).rows) = _
    rw [foldl_vconcat2_rows]
    have : y.rows + (ys.map QMat.rows).sum = ((y :: ys).map QMat.rows).sum := by
      simp
    rw [this, ← hms2, hmsrows]

/-- Claim C5, counterexample: on the concrete dataset `egSingleDS`, the
cached `unfold("x")` exists and has 1 column, but `khatri_rao("x")` has no
row count at all — it fails with IndexError — so the claimed equality of the
two dimensions fails. -/
theorem c5_counterexample :
    (unfoldOf egSingleCT "x").cols = 1 ∧
      egSingleCT.khatri_rao "x" = .error .indexError := ⟨rfl, rfl⟩

/-- Claim C5, witness: the amended statement instantiated on `egDS`
(axes x, y of length 2, one variable over both) at axis x. -/
theorem c5_unfold_cols_eq_kr_rows_witness :
    (egCT.khatri_rao "x").toOption.map QMat.rows =
      some (((egDS.vars.filter (fun p => decide ("x" ∈ p.2.dims))).map
        (fun p => ((p.2.dims.filter (fun b => decide (b ≠ "x"))).map
          (axLen egDS)).prod)).sum) ∧
    (unfoldOf egCT "x").cols =
      ((egDS.vars.filter (fun p => decide ("x" ∈ p.2.dims))).map
        (fun p => ((p.2.dims.filter (fun b => decide (b ≠ "x"))).map
          (axLen egDS)).prod)).sum :=
  c5_unfold_cols_eq_kr_rows egDS 2 egCT "x" rfl (by decide) (by decide)
    (by decide) (by decide)
